import Mathlib

/-!
# Verification of the songlooper multi-stem playback engine

Shallow embedding of `src/audio_engine.py` (the `AudioEngine` class) and
proofs about its behaviour.  Audio samples are modelled as rationals,
sample buffers as lists, Python dicts as association lists with
replace-or-append insertion, and Python sets as `Finset String`.
Methods that mutate `self` become functions `Engine → ... × Engine`;
methods that can raise become `Except PyError ...`.
-/

namespace SongLooper

/-- Python exceptions that the embedded code can raise. -/
inductive PyError where
  | zeroDivisionError
  | valueError (msg : String)
  | fileNotFoundError (msg : String)
deriving DecidableEq

instance {ε α : Type} [DecidableEq ε] [DecidableEq α] :
    DecidableEq (Except ε α) := fun a b =>
  match a, b with
  | .error x, .error y =>
    if h : x = y then isTrue (by rw [h])
    else isFalse (fun hc => h (by injection hc))
  | .error _, .ok _ => isFalse (fun hc => Except.noConfusion hc)
  | .ok _, .error _ => isFalse (fun hc => Except.noConfusion hc)
  | .ok x, .ok y =>
    if h : x = y then isTrue (by rw [h])
    else isFalse (fun hc => h (by injection hc))

/-- Python `int(x)` applied to a float/rational: truncation toward zero. -/
def pyInt (q : ℚ) : ℤ :=
  if 0 ≤ q then ⌊q⌋ else ⌈q⌉

/-- Python `round(x, 6)`: rounding to six decimal places
(used for the time-stretch cache keys, `audio_engine.py` lines 412-414).
Tie-breaking differs from CPython banker's rounding, which is irrelevant
to every property proved here. -/
def roundQ6 (q : ℚ) : ℚ :=
  (round (q * 1000000) : ℤ) / 1000000

/-- Lookup in an association list modelling a Python dict
(first, hence unique, binding wins). -/
def alookup {α β : Type} [DecidableEq α] (k : α) : List (α × β) → Option β
  | [] => none
  | (k2, v) :: t => if k2 = k then some v else alookup k t

/-- Python dict assignment `d[k] = v`: replace the binding in place when the
key is present, append otherwise. -/
def dictInsert {α β : Type} [DecidableEq α] (k : α) (v : β) :
    List (α × β) → List (α × β)
  | [] => [(k, v)]
  | (k2, v2) :: t => if k2 = k then (k, v) :: t else (k2, v2) :: dictInsert k v t

/-- A NumPy array as used by the engine: one-dimensional (mono) or
two-dimensional with a fixed column (channel) count. -/
inductive NpArr where
  | one (xs : List ℚ)
  | two (cols : ℕ) (rows : List (List ℚ))
deriving DecidableEq

namespace NpArr

/-- `len(a)`: the number of frames. -/
def len : NpArr → ℕ
  | one xs => xs.length
  | two _ rows => rows.length

/-- `a.size`: the total number of scalar entries. -/
def size : NpArr → ℕ
  | one xs => xs.length
  | two c rows => rows.length * c

/-- `a.ndim`. -/
def ndim : NpArr → ℕ
  | one _ => 1
  | two _ _ => 2

/-- `a.shape[1]` for a two-dimensional array, 1 for a mono array. -/
def cols : NpArr → ℕ
  | one _ => 1
  | two c _ => c

/-- Python slice `a[i:j]` on the frame axis (`0 ≤ i ≤ j` already ensured by
the callers embedded here). -/
def sliceFrames : NpArr → ℕ → ℕ → NpArr
  | one xs, i, j => one ((xs.drop i).take (j - i))
  | two c rows, i, j => two c ((rows.drop i).take (j - i))

end NpArr

/-- `np.zeros((n, c))` as a row list. -/
def zerosRows (n c : ℕ) : List (List ℚ) :=
  List.replicate n (List.replicate c 0)

/-- Frame index used by the modelled stretch primitive. -/
def stretchIdx (i : ℕ) (speed : ℚ) : ℕ :=
  (⌊(i : ℚ) * speed⌋).toNat

/-- Modelled from the spec: the pitch-preserving time-stretch primitive
(`pyrb.time_stretch`, an external library not in `src/`).  Per spec §4.2 the
output length is `(end-start)*sample_rate/speed` rounded down, i.e. the input
length divided by `speed`, rounded down; the sample content is unspecified by
the spec and is modelled as deterministic index resampling. -/
def stretchSamples (xs : List ℚ) (speed : ℚ) : List ℚ :=
  if speed ≤ 0 then xs
  else (List.range (⌊(xs.length : ℚ) / speed⌋).toNat).map
    (fun i => xs.getD (stretchIdx i speed) 0)

/-- Modelled from the spec: multichannel variant of [stretchSamples];
channels are stretched independently, preserving the channel count. -/
def stretchRows (rows : List (List ℚ)) (speed : ℚ) : List (List ℚ) :=
  if speed ≤ 0 then rows
  else (List.range (⌊(rows.length : ℚ) / speed⌋).toNat).map
    (fun i => rows.getD (stretchIdx i speed) [])

/-- Modelled from the spec: `pyrb.time_stretch` on a whole array. -/
def pyrbStretch (a : NpArr) (speed : ℚ) : NpArr :=
  match a with
  | .one xs => .one (stretchSamples xs speed)
  | .two c rows => .two c (stretchRows rows speed)

/-- `AudioEngine.custom_time_stretch` (lines 236-244): guard against
non-positive speed (returns the input unchanged with a warning), otherwise
delegate to the stretch primitive; `astype(np.float32)` is the identity in
this rational model. -/
def custom_time_stretch (audio : NpArr) (speed : ℚ) : NpArr :=
  if speed ≤ 0 then audio else pyrbStretch audio speed

/-- `Section` dataclass (lines 13-19). -/
structure Section where
  name : String
  muted : Bool
  level : ℚ
  start_time : ℚ
  end_time : ℚ
deriving DecidableEq

/-- `SongConfig` dataclass (lines 21-27). -/
structure SongConfig where
  title : String
  path : String
  bpm : ℚ
  sections : List Section
  current_section : String
deriving DecidableEq

/-- Key of the time-stretch cache `processed_stems`
(lines 412-415): `(stem_name, rounded start, rounded end, rounded speed)`. -/
abbrev CacheKey := String × ℚ × ℚ × ℚ

/-- The mutable state of an `AudioEngine` instance (lines 30-58).
Threading primitives (`stop_event`, the worker thread handle) are not state
observable through the claims and are modelled where needed by explicit
parameters; `mute_status_change_callback` keeps only the registered client
ids, and deliveries are returned as explicit notification lists. -/
structure Engine where
  current_song : Option SongConfig := none
  playing : Bool := false
  loop : Bool := false
  playback_speed : ℚ := 1
  loop_delay : ℚ := 0
  stems : List (String × NpArr) := []
  stem_srs : ℕ := 0
  muted_stems : Finset String := ∅
  processed_stems : List (CacheKey × NpArr) := []
  count_in : Bool := false
  start_position : ℚ := 0
  end_position : ℚ := 0
  current_position : ℚ := 0
  mute_callbacks : List ℕ := []
  next_mute_cb_id : ℕ := 0
deriving DecidableEq

/-- `AudioEngine.__init__` (lines 30-58). -/
def engineInit : Engine := {}

/-- The part of the engine read by the audio-preparation methods:
`self.stems` and `self.stem_srs` (they additionally read and write
`self.processed_stems`, threaded separately as an explicit cache value). -/
structure StemCtx where
  stems : List (String × NpArr)
  srs : ℕ
deriving DecidableEq

/-- Projection of an engine onto the preparation context. -/
def Engine.ctx (e : Engine) : StemCtx :=
  ⟨e.stems, e.stem_srs⟩

/-- The memoization cache `self.processed_stems`. -/
abbrev Cache := List (CacheKey × NpArr)

-- -------------------------------------------------------
--   GETTERS / SETTERS (lines 64-112, 230-231)
-- -------------------------------------------------------

/-- `set_position` (lines 64-66). -/
def set_position (e : Engine) (pos : ℚ) : Engine :=
  { e with current_position := pos }

/-- `set_loop` (lines 68-69). -/
def set_loop (e : Engine) (l : Bool) : Engine :=
  { e with loop := l }

/-- `set_playback_speed` (lines 71-72). -/
def set_playback_speed (e : Engine) (speed : ℚ) : Engine :=
  { e with playback_speed := speed }

/-- `set_loop_delay` (lines 74-75). -/
def set_loop_delay (e : Engine) (d : ℚ) : Engine :=
  { e with loop_delay := d }

/-- `set_start_position` (lines 80-83). -/
def set_start_position (e : Engine) (pos : ℚ) : Engine :=
  { e with start_position := pos }

/-- `set_end_position` (lines 85-88). -/
def set_end_position (e : Engine) (pos : ℚ) : Engine :=
  { e with end_position := pos }

/-- `set_count_in` (lines 230-231). -/
def set_count_in (e : Engine) (b : Bool) : Engine :=
  { e with count_in := b }

/-- `get_current_position` (lines 93-95). -/
def get_current_position (e : Engine) : ℚ :=
  e.current_position

/-- `is_playing` (lines 97-98). -/
def is_playing (e : Engine) : Bool :=
  e.playing

/-- `add_mute_callback` (lines 100-105); the callback itself is represented
by its client id. -/
def add_mute_callback (e : Engine) : ℕ × Engine :=
  (e.next_mute_cb_id,
   { e with mute_callbacks := e.mute_callbacks ++ [e.next_mute_cb_id],
            next_mute_cb_id := e.next_mute_cb_id + 1 })

/-- `remove_mute_callback` (lines 107-112). -/
def remove_mute_callback (e : Engine) (client_id : ℕ) : Engine :=
  { e with mute_callbacks := e.mute_callbacks.filter (fun i => i ≠ client_id) }

/-- `clear_stem_cache` (lines 132-133). -/
def clear_stem_cache (e : Engine) : Engine :=
  { e with processed_stems := [] }

/-- `find_section` (lines 124-130): first section with the given name
(the loop breaks at the first match). -/
def find_section (sections : List Section) (section_name : String) :
    Option Section :=
  sections.find? (fun s => s.name = section_name)

/-- `get_total_duration` (lines 298-302): length of the longest stem divided
by the sample rate, 0 when no stems are loaded.  `stem_srs` is positive
whenever stems are loaded (it comes from a sound file's sample rate), so the
rational division never divides by zero in reachable states. -/
def get_total_duration (e : Engine) : ℚ :=
  match e.stems with
  | [] => 0
  | s :: t => ((s :: t).map (fun p => (p.2.len : ℚ))).foldl max ((s.2.len : ℚ)) / e.stem_srs

/-- `get_stem_names` (lines 189-190). -/
def get_stem_names (e : Engine) : List String :=
  e.stems.map Prod.fst

-- -------------------------------------------------------
--   MUTE / UNMUTE (lines 274-293)
-- -------------------------------------------------------

/-- `toggle_mute_stem` (lines 274-293).  Returns the new muted state, the
updated engine, and the list of notifications `(client_id, stem_name,
is_muted)` delivered synchronously to the registered callbacks. -/
def toggle_mute_stem (e : Engine) (stem_name : String) :
    Bool × Engine × List (ℕ × String × Bool) :=
  match alookup stem_name e.stems with
  | none => (false, e, [])
  | some _ =>
    if stem_name ∈ e.muted_stems then
      (false, { e with muted_stems := e.muted_stems.erase stem_name },
       e.mute_callbacks.map (fun id => (id, stem_name, false)))
    else
      (true, { e with muted_stems := insert stem_name e.muted_stems },
       e.mute_callbacks.map (fun id => (id, stem_name, true)))

-- -------------------------------------------------------
--   SONG LOADING (lines 135-187)
-- -------------------------------------------------------

/-- One entry of `config.json`'s `sections` array; `muted` and `level` are
read with `.get` defaults, the other keys are mandatory. -/
structure SectionData where
  name : String
  muted : Option Bool
  level : Option ℚ
  start_time : ℚ
  end_time : ℚ
deriving DecidableEq

/-- The parsed contents of a song folder's `config.json`; every top-level
key is read with a `.get` default (lines 144-153). -/
structure ConfigData where
  title : Option String
  bpm : Option ℚ
  sections : List SectionData
  current_section : Option String
deriving DecidableEq

/-- A song directory as seen by `load_song`: whether `config.json` exists,
its parsed contents, and the audio files found by the directory scan of
lines 160-166 (those whose lowercased name ends in `.wav`/`.mp3`/`.flac`/
`.ogg`), each as `(stem name, sample data, samplerate)` in scan order. -/
structure SongFolder where
  path : String
  basename : String
  hasConfig : Bool
  config : ConfigData
  audioFiles : List (String × NpArr × ℕ)
deriving DecidableEq

/-- Message of the *Missing Configuration* error (line 138). -/
def msgNoConfig (folder : String) : String :=
  "No config.json in " ++ folder

/-- Message of the *No Audio Data* error (line 169). -/
def msgNoAudio (folder : String) : String :=
  "No audio files in " ++ folder

/-- Default current-section name (line 152). -/
def fullSongName : String :=
  "Full Song"

/-- `load_song` (lines 135-187).  Returns the result (the parsed
`SongConfig`, or the exception raised) together with the engine state left
behind by the call — on an exception, the state as mutated up to the raise
point, exactly as with a Python exception. -/
def load_song (e : Engine) (folder : SongFolder) :
    Except PyError SongConfig × Engine :=
  if ¬ folder.hasConfig then
    (.error (.fileNotFoundError (msgNoConfig folder.path)), e)
  else
    let sections := folder.config.sections.map (fun sec =>
      Section.mk sec.name (sec.muted.getD false) (sec.level.getD 1)
        sec.start_time sec.end_time)
    let song_cfg : SongConfig :=
      { title := folder.config.title.getD folder.basename
        path := folder.path
        bpm := folder.config.bpm.getD 120
        sections := sections
        current_section := folder.config.current_section.getD fullSongName }
    -- Clear old stems (lines 156-157)
    let e1 := { e with stems := [], processed_stems := [] }
    -- Load each audio file (lines 160-166); the last file's rate wins
    let e2 := folder.audioFiles.foldl (fun acc f =>
      { acc with stems := dictInsert f.1 f.2.1 acc.stems, stem_srs := f.2.2 }) e1
    if e2.stems = [] then
      (.error (.fileNotFoundError (msgNoAudio folder.path)), e2)
    else
      let e3 := { e2 with
        current_song := some song_cfg
        muted_stems := ∅
        start_position := 0
        current_position := 0
        end_position := get_total_duration e2 }
      match find_section song_cfg.sections song_cfg.current_section with
      | some sec =>
        (.ok song_cfg, { e3 with
          start_position := sec.start_time
          current_position := sec.start_time
          end_position := sec.end_time })
      | none => (.ok song_cfg, e3)

-- -------------------------------------------------------
--   TRANSPORT (lines 192-228)
-- -------------------------------------------------------

/-- Message of the `ValueError` raised by `play_section` (line 195). -/
def msgNoSong : String :=
  "No song loaded."

/-- `pause` (lines 219-228): sets the stop event, joins the worker thread
and records that playback stopped; the thread-handle bookkeeping has no
further observable effect in this state model. -/
def pause (e : Engine) : Engine :=
  if e.playing then { e with playing := false } else e

/-- `stop` (lines 216-217). -/
def stop (e : Engine) : Engine :=
  pause e

/-- `play_section` (lines 192-214): requires a loaded song, stops any
running playback, clamps `current_position` to `start_position` whenever it
lies outside `[start_position, end_position]`, and starts the worker. -/
def play_section (e : Engine) : Except PyError Engine :=
  match e.current_song with
  | none => .error (.valueError msgNoSong)
  | some _ =>
    let e1 := stop e
    let e2 :=
      if e1.current_position < e1.start_position ∨
          e1.end_position < e1.current_position then
        { e1 with current_position := e1.start_position }
      else e1
    .ok { e2 with playing := true }

-- -------------------------------------------------------
--   SNIPPET STRETCHING WITH CACHE (lines 406-450)
-- -------------------------------------------------------

/-- The cache key built at lines 412-415. -/
def snippetKey (stem_name : String) (start_sec end_sec speed : ℚ) : CacheKey :=
  (stem_name, roundQ6 start_sec, roundQ6 end_sec, roundQ6 speed)

/-- The cache-miss path of `_get_or_stretch_stem_snippet`
(lines 424-446): look the stem up, slice `[start_sec, end_sec)` clamped to
the stem's length, and time-stretch the snippet; `none` models the `None`
returns for a missing stem or an empty snippet. -/
def computeSnippet (ctx : StemCtx) (stem_name : String)
    (start_sec end_sec speed : ℚ) : Option NpArr :=
  match alookup stem_name ctx.stems with
  | none => none
  | some audio_data =>
    let start_sample := pyInt (start_sec * ctx.srs)
    let end_sample := pyInt (end_sec * ctx.srs)
    let safe_start := max 0 start_sample
    let safe_end := min (audio_data.len : ℤ) end_sample
    if safe_end ≤ safe_start then none
    else
      let snippet := audio_data.sliceFrames safe_start.toNat safe_end.toNat
      if snippet.size = 0 then none
      else some (custom_time_stretch snippet speed)

/-- `_get_or_stretch_stem_snippet` (lines 406-450) acting on an explicit
cache: return the cached buffer when the rounded key is present, otherwise
compute the snippet and store it (only a successfully computed snippet is
cached). -/
def getOrStretchC (ctx : StemCtx) (cache : Cache) (stem_name : String)
    (start_sec end_sec speed : ℚ) : Option NpArr × Cache :=
  let key := snippetKey stem_name start_sec end_sec speed
  match alookup key cache with
  | some cached => (some cached, cache)
  | none =>
    match computeSnippet ctx stem_name start_sec end_sec speed with
    | none => (none, cache)
    | some stretched => (some stretched, dictInsert key stretched cache)

/-- `_get_or_stretch_stem_snippet` as a method on the engine. -/
def get_or_stretch_stem_snippet (e : Engine) (stem_name : String)
    (start_sec end_sec speed : ℚ) : Option NpArr × Engine :=
  let r := getOrStretchC e.ctx e.processed_stems stem_name start_sec end_sec speed
  (r.1, { e with processed_stems := r.2 })

-- -------------------------------------------------------
--   MIX PREPARATION (lines 452-502)
-- -------------------------------------------------------

/-- `mixed_section[:ltm] += snippet[:ltm, np.newaxis]` (line 495): a mono
snippet is added to every channel of the first `ltm` output frames. -/
def addMono (mix : List (List ℚ)) (snip : List ℚ) (ltm : ℕ) : List (List ℚ) :=
  List.zipWith (fun row v => row.map (fun x => x + v))
    (mix.take ltm) (snip.take ltm) ++ mix.drop ltm

/-- `mixed_section[:ltm, :ctm] += snippet[:ltm, :ctm]` (line 500):
channelwise addition over the first `ctm` channels of the first `ltm`
frames. -/
def addMulti (mix snipRows : List (List ℚ)) (ltm ctm : ℕ) : List (List ℚ) :=
  List.zipWith
    (fun row srow =>
      List.zipWith (fun x y => x + y) (row.take ctm) (srow.take ctm) ++ row.drop ctm)
    (mix.take ltm) (snipRows.take ltm) ++ mix.drop ltm

/-- Maximum channel count across the loaded stems (lines 457-462). -/
def maxChannels (stems : List (String × NpArr)) : ℕ :=
  stems.foldl
    (fun ch p => match p.2 with | .one _ => ch | .two c _ => max ch c) 1

/-- The contribution of one stem's snippet result to the mix being
accumulated: the body of the loop at lines 488-500.  `none`, an empty
snippet, or a zero mixing length leave the mix unchanged (the `continue`
branches); otherwise the snippet is summed in, mono snippets across all
channels, multichannel ones channel by channel. -/
def mixStep (channels : ℕ) (mix : List (List ℚ)) :
    Option NpArr → List (List ℚ)
  | none => mix
  | some snip =>
    if 0 < snip.size then
      if min mix.length snip.len = 0 then mix
      else
        match snip with
        | .one xs => addMono mix xs (min mix.length snip.len)
        | .two c rows =>
          addMulti mix rows (min mix.length snip.len) (min channels c)
    else mix

/-- The stem-mixing loop of `_prepare_mixed_audio` (lines 481-500), over an
explicit iteration list (the engine's stems), threading the cache through
`_get_or_stretch_stem_snippet` and accumulating each snippet with
[mixStep]. -/
def mixLoop (ctx : StemCtx) (start_sec end_sec speed : ℚ)
    (muted : Finset String) (channels : ℕ) :
    List (String × NpArr) → Cache → List (List ℚ) → List (List ℚ) × Cache
  | [], cache, mix => (mix, cache)
  | (stem_name, _) :: rest, cache, mix =>
    if stem_name ∈ muted then
      mixLoop ctx start_sec end_sec speed muted channels rest cache mix
    else
      mixLoop ctx start_sec end_sec speed muted channels rest
        (getOrStretchC ctx cache stem_name start_sec end_sec speed).2
        (mixStep channels mix
          (getOrStretchC ctx cache stem_name start_sec end_sec speed).1)

/-- `_prepare_mixed_audio` (lines 452-502) acting on an explicit cache:
channel count, output length `int((end-start)*srs/speed)` (a
`ZeroDivisionError` when `speed = 0` and stems are loaded, exactly as the
Python float division), then the mixing loop.  With no stems loaded it
returns a zero-length buffer before reaching the division. -/
def prepareC (ctx : StemCtx) (cache : Cache) (start_sec end_sec speed : ℚ)
    (muted : Finset String) : Except PyError ((NpArr × ℕ) × Cache) :=
  match ctx.stems with
  | [] => .ok ((NpArr.two 1 [], 1), cache)
  | _ :: _ =>
    let channels := maxChannels ctx.stems
    if speed = 0 then .error .zeroDivisionError
    else
      let new_length := pyInt ((end_sec - start_sec) * ctx.srs / speed)
      if new_length ≤ 0 then .ok ((NpArr.two channels [], channels), cache)
      else
        let r := mixLoop ctx start_sec end_sec speed muted channels ctx.stems
          cache (zerosRows new_length.toNat channels)
        .ok ((NpArr.two channels r.1, channels), r.2)

/-- `_prepare_mixed_audio` as a method on the engine. -/
def prepare_mixed_audio (e : Engine) (start_sec end_sec speed : ℚ)
    (muted : Finset String) : Except PyError ((NpArr × ℕ) × Engine) :=
  match prepareC e.ctx e.processed_stems start_sec end_sec speed muted with
  | .error err => .error err
  | .ok (v, c) => .ok (v, { e with processed_stems := c })

-- -------------------------------------------------------
--   PLAYBACK WORKER (lines 507-694)
-- -------------------------------------------------------

/-- The worker-local variables of `_playback_worker` read and written by
`recalculate` (lines 513-530): the parameters used to build the current mix
buffer, the consumption offset, and the dirty flag `should_recompute`. -/
structure WorkerState where
  current_start : ℚ
  current_end : ℚ
  current_speed : ℚ
  frames_consumed : ℤ
  channels : ℕ
  mix : NpArr
  should_recompute : Bool
deriving DecidableEq

/-- The worker's `recalculate` closure (lines 532-560): flag a recompute
when speed or boundaries differ from those of the current buffer, clearing
the stem cache only when the boundaries changed; when flagged, rebuild the
mix through `_prepare_mixed_audio` and recalculate the consumption offset
`int(srs*(current_position - current_start)/current_speed)` clamped to the
new buffer's length.  The mute callback (lines 628-630) flags
`should_recompute` without clearing anything. -/
def recalculate (e : Engine) (w : WorkerState) :
    Except PyError (Engine × WorkerState) :=
  let w1 : WorkerState :=
    if e.playback_speed ≠ w.current_speed ∨
        e.start_position ≠ w.current_start ∨
        e.end_position ≠ w.current_end then
      { w with should_recompute := true }
    else w
  -- the clear at line 542 runs exactly when time_changed holds
  let e1 : Engine :=
    if e.start_position ≠ w.current_start ∨ e.end_position ≠ w.current_end
    then clear_stem_cache e
    else e
  if w1.should_recompute then
    let w2 : WorkerState := { w1 with
      should_recompute := false
      current_speed := e1.playback_speed
      current_start := e1.start_position
      current_end := e1.end_position }
    match prepare_mixed_audio e1 w2.current_start w2.current_end
        w2.current_speed e1.muted_stems with
    | .error err => .error err
    | .ok ((buf, ch), e2) =>
      -- line 557 divides by current_speed
      if w2.current_speed = 0 then .error .zeroDivisionError
      else
        let fc := pyInt ((e2.stem_srs : ℚ) *
          (e2.current_position - w2.current_start) / w2.current_speed)
        .ok (e2, { w2 with
          mix := buf
          channels := ch
          frames_consumed := min fc (buf.len : ℤ) })
  else .ok (e1, w1)

/-- The worker-local state produced by a recompute pass of `recalculate`
(lines 544-560), given the buffer and channel count returned by
`_prepare_mixed_audio`: the mix parameters are re-read from the engine,
and the consumption offset is recalculated from `current_position` and
clamped to the new buffer's length (lines 557-560). -/
def rebuiltWorker (e : Engine) (buf : NpArr) (ch : ℕ) : WorkerState :=
  { current_start := e.start_position
    current_end := e.end_position
    current_speed := e.playback_speed
    frames_consumed := min (pyInt ((e.stem_srs : ℚ) *
      (e.current_position - e.start_position) / e.playback_speed))
      (buf.len : ℤ)
    channels := ch
    mix := buf
    should_recompute := false }

/-- The audio-callback frame accounting of one streaming pass
(lines 572-626) with no concurrent state change, so that `recalculate` is a
no-op at every block after the first: each 1024-frame block consumes
`min 1024 (buffer_len - frames_consumed)` frames and sets
`current_position := min current_end (current_start +
(frames_consumed/srs)*speed)`; when the buffer is exhausted the callback
outputs silence and sets `current_position := min current_end
current_position` (line 584).  Returns the final `current_position`.  The
first argument is recursion fuel: each block below the exhaustion point
consumes at least one frame, so any fuel exceeding `bufLen` runs the stream
to completion (`playback_pass` passes `bufLen + 1`). -/
def runCallbacks (bufLen : ℕ) (start_pos end_pos speed : ℚ) (srs : ℕ) :
    ℕ → ℕ → ℚ → ℚ
  | 0, _, pos => pos
  | fuel + 1, fc, pos =>
    if bufLen ≤ fc then min end_pos pos
    else
      let fc2 := fc + min 1024 (bufLen - fc)
      runCallbacks bufLen start_pos end_pos speed srs fuel fc2
        (min end_pos (start_pos + ((fc2 : ℚ) / srs) * speed))

/-- One complete pass of `_playback_worker` (lines 507-694) under the
conditions of a completed non-looping playback: `loop = false`,
`count_in = false`, no cancellation, and no concurrent mutation of the
transport state (so `recalculate` fires only on the first block, where
`should_recompute` starts true).  The first block builds the mix from the
current boundaries/speed and sets the consumption offset from
`current_position` (nonnegative whenever `start_position ≤
current_position`, the invariant `play_section` establishes); the remaining
blocks are `runCallbacks`; on exit the worker clears `playing`
(line 693). -/
def playback_pass (e : Engine) : Except PyError Engine :=
  match prepare_mixed_audio e e.start_position e.end_position
      e.playback_speed e.muted_stems with
  | .error err => .error err
  | .ok ((buf, _ch), e2) =>
    if e.playback_speed = 0 then .error .zeroDivisionError
    else
      let fc0 : ℤ := min
        (pyInt ((e.stem_srs : ℚ) *
          (e2.current_position - e.start_position) / e.playback_speed))
        (buf.len : ℤ)
      let finalPos := runCallbacks buf.len e.start_position e.end_position
        e.playback_speed e.stem_srs (buf.len + 1) fc0.toNat e2.current_position
      .ok { e2 with current_position := finalPos, playing := false }

-- -------------------------------------------------------
--   COUNT-IN (lines 700-719)
-- -------------------------------------------------------

/-- Observable actions of `_play_count_in`: playing one click, or sleeping
for the inter-click remainder. -/
inductive CIEvent where
  | click
  | wait (dur : ℚ)
deriving DecidableEq

/-- `click_dur = 0.05` (line 708). -/
def clickDur : ℚ := 1 / 20

/-- The click loop of `_play_count_in` (lines 712-719) as an action trace.
Each click and each sleep is one observable action; `stopAfter` is the
number of completed actions after which the stop event is set (so the check
at line 715, performed right after each click, observes the event exactly
when at least `stopAfter` actions have completed).  The sleep happens only
when `beat_interval - click_dur > 0` (lines 717-719), and no cancellation
check follows it. -/
def countInLoop (beat_interval click_dur : ℚ) (stopAfter : ℕ) :
    ℕ → ℕ → List CIEvent
  | 0, _ => []
  | n + 1, acts =>
    CIEvent.click ::
      (if stopAfter ≤ acts + 1 then []
       else
         let remain := beat_interval - click_dur
         if 0 < remain then
           CIEvent.wait remain ::
             countInLoop beat_interval click_dur stopAfter n (acts + 2)
         else countInLoop beat_interval click_dur stopAfter n (acts + 1))

/-- `_play_count_in` (lines 700-719): no song or a falsy (zero) bpm returns
at once; otherwise four clicks at `beat_interval = 60/bpm`. -/
def play_count_in (e : Engine) (stopAfter : ℕ) : List CIEvent :=
  match e.current_song with
  | none => []
  | some song =>
    if song.bpm = 0 then []
    else countInLoop (60 / song.bpm) clickDur stopAfter 4 0

/-- Recognizer for click events. -/
def isClick : CIEvent → Bool
  | .click => true
  | .wait _ => false

/-- Number of clicks in a count-in trace. -/
def countClicks (tr : List CIEvent) : ℕ :=
  (tr.filter isClick).length

-- -------------------------------------------------------
--   DERIVED PREDICATES AND CONCRETE INSTANCES
-- -------------------------------------------------------

/-- All entries of a row list are zero (silence). -/
def rowsAllZero (rows : List (List ℚ)) : Prop :=
  ∀ r ∈ rows, ∀ x ∈ r, x = 0

/-- An all-silence buffer. -/
def NpArr.allZero : NpArr → Prop
  | .one xs => ∀ x ∈ xs, x = 0
  | .two _ rows => rowsAllZero rows

/-- The invariant of C4: every muted stem name is a loaded stem name. -/
def MutedInv (e : Engine) : Prop :=
  ∀ s ∈ e.muted_stems, s ∈ get_stem_names e

/-- Concrete engine for the C5 witness: a loaded song with
`current_position` outside `[start_position, end_position]`. -/
def w5Engine : Engine :=
  { engineInit with
    current_song := some ⟨"t", "p", 120, [], "s"⟩
    start_position := 1
    end_position := 3
    current_position := 5 }

/-- Concrete engine for the C10 witness: one loaded stem, currently
muted. -/
def w10Engine : Engine :=
  { engineInit with
    stems := [⟨"a", NpArr.one [1, 2]⟩]
    stem_srs := 1
    muted_stems := {"a"} }

/-- Engine with previously loaded data, for the C1 counterexample. -/
def ce1Engine : Engine :=
  { engineInit with
    stems := [⟨"a", NpArr.one [1, 2]⟩]
    stem_srs := 1
    processed_stems := [⟨("a", 0, 1, 1), NpArr.one [1]⟩] }

/-- A folder with a configuration file but no audio files. -/
def ce1Folder : SongFolder :=
  ⟨"f", "f", true, ⟨none, none, [], none⟩, []⟩

/-- Engine with one loaded, muted stem, for the C4 counterexample. -/
def ce4Engine : Engine :=
  { engineInit with
    stems := [⟨"a", NpArr.one [1, 2]⟩]
    stem_srs := 1
    muted_stems := {"a"} }

/-- A folder with a configuration file but no audio files, used to drive
`load_song` into its *No Audio Data* exit. -/
def ce4Folder : SongFolder :=
  ⟨"f", "f", true, ⟨none, none, [], none⟩, []⟩

/-- Engine with one loaded stem, for the C2 counterexample and witness. -/
def e2Engine : Engine :=
  { engineInit with
    stems := [⟨"a", NpArr.one [1, 2, 3, 4]⟩]
    stem_srs := 2 }

/-- Engine with a 120-bpm song loaded, for C9. -/
def e9Engine : Engine :=
  { engineInit with current_song := some ⟨"t", "p", 120, [], "s"⟩ }

/-- The length in samples of the raw snippet `[start_sec, end_sec)` sliced
from a stem, clamped to the stem's bounds: the explicit form of the slice
length computed at lines 429-440 of `_get_or_stretch_stem_snippet`
(approximately `(end_sec - start_sec) * srs` for an in-range section). -/
def snippetSampleLen (ctx : StemCtx) (n : String) (a b : ℚ) : ℕ :=
  match alookup n ctx.stems with
  | none => 0
  | some audio =>
    (min (audio.len : ℤ) (pyInt (b * (ctx.srs : ℚ)))).toNat -
      (max 0 (pyInt (a * (ctx.srs : ℚ)))).toNat

/-- Preparation context with one four-sample stem at 2 Hz, for C7. -/
def e7Ctx : StemCtx :=
  ⟨[⟨"a", NpArr.one [1, 2, 3, 4]⟩], 2⟩

/-- A stale cache key unrelated to the current section, for C3. -/
def ghostKey : CacheKey :=
  ("ghost", 0, 0, 0)

/-- Engine for C3: one stem, a stale cache entry under [ghostKey], and a
playback speed differing from the worker's. -/
def ce3Engine : Engine :=
  { engineInit with
    stems := [⟨"a", NpArr.one [1, 2, 3, 4]⟩]
    stem_srs := 2
    playback_speed := 2
    start_position := 0
    end_position := 2
    current_position := 0
    processed_stems := [⟨ghostKey, NpArr.one [9]⟩] }

/-- Worker-local state for C3: the current mix buffer was built with
speed 1 and the same boundaries the engine still has. -/
def ce3Worker : WorkerState :=
  { current_start := 0
    current_end := 2
    current_speed := 1
    frames_consumed := 0
    channels := 1
    mix := NpArr.two 1 []
    should_recompute := false }

/-- Engine for the C6 counterexample: section `[0, 3/8)` at 4 Hz and
speed 1, whose frame count `int(3/8 · 4) = 1` truncates, so playback ends
at `1/4`, strictly before `end_position = 3/8`. -/
def ce6Engine : Engine :=
  { engineInit with
    current_song := some ⟨"t", "p", 120, [], "s"⟩
    stems := [⟨"a", NpArr.one [0, 0, 0, 0, 0, 0, 0, 0]⟩]
    stem_srs := 4
    playback_speed := 1
    start_position := 0
    end_position := 3 / 8
    current_position := 0 }

/-- Engine for the C6 witness: section `[0, 2)` at 2 Hz and speed 1, for
which `(end-start)·srs/speed = 4` is exact, so playback ends exactly at
`end_position`. -/
def w6Engine : Engine :=
  { engineInit with
    current_song := some ⟨"t", "p", 120, [], "s"⟩
    stems := [⟨"a", NpArr.one [1, 2, 3, 4]⟩]
    stem_srs := 2
    playback_speed := 1
    start_position := 0
    end_position := 2
    current_position := 0 }

-- -------------------------------------------------------
--   BASIC LEMMAS
-- -------------------------------------------------------

lemma alookup_dictInsert {α β : Type} [DecidableEq α] (k k2 : α) (v : β)
    (c : List (α × β)) :
    alookup k2 (dictInsert k v c) =
      if k = k2 then some v else alookup k2 c := by
  induction c with
  | nil => simp [dictInsert, alookup]
  | cons hd t ih =>
    obtain ⟨k3, v3⟩ := hd
    by_cases h3 : k3 = k
    · subst h3
      by_cases h2 : k3 = k2 <;> simp [dictInsert, alookup, h2]
    · by_cases h2 : k3 = k2
      · subst h2
        have : ¬ k = k3 := fun hc => h3 hc.symm
        simp [dictInsert, alookup, h3, this]
      · simp [dictInsert, alookup, h3, h2, ih]

lemma alookup_mem_fst {α β : Type} [DecidableEq α] {k : α} {l : List (α × β)}
    {v : β} (h : alookup k l = some v) : k ∈ l.map Prod.fst := by
  induction l with
  | nil => simp [alookup] at h
  | cons hd t ih =>
    obtain ⟨k2, v2⟩ := hd
    by_cases h2 : k2 = k
    · subst h2; simp
    · simp [alookup, h2] at h
      simp [ih h]

lemma pyInt_zero : pyInt 0 = 0 := by
  simp [pyInt]

lemma pyInt_nonpos {q : ℚ} (h : q ≤ 0) : pyInt q ≤ 0 := by
  unfold pyInt
  split
  · exact Int.floor_nonpos h
  · exact Int.ceil_le.mpr (by push_cast; exact h)

lemma pyInt_nonneg {q : ℚ} (h : 0 ≤ q) : 0 ≤ pyInt q := by
  unfold pyInt
  rw [if_pos h]
  exact Int.floor_nonneg.mpr h

lemma pyInt_mono {p q : ℚ} (h : p ≤ q) : pyInt p ≤ pyInt q := by
  unfold pyInt
  split
  · split
    · exact Int.floor_le_floor h
    · next h1 h2 => exact absurd (le_trans h1 h) h2
  · split
    · next h1 h2 =>
      calc ⌈p⌉ ≤ 0 := Int.ceil_le.mpr (by push_cast; exact le_of_not_le h1)
        _ ≤ ⌊q⌋ := Int.floor_nonneg.mpr h2
    · exact Int.ceil_le_ceil h

-- -------------------------------------------------------
--   CLAIM C5
-- -------------------------------------------------------

/-- C5: for every `play_section` call on a loaded song, `current_position`
is set to `start_position` when it lies outside
`[start_position, end_position]` at call time, and is left unchanged when
it lies inside. -/
theorem claim_C5 (e : Engine) (c : SongConfig)
    (h : e.current_song = some c) :
    ∃ f, play_section e = .ok f ∧
      ((e.current_position < e.start_position ∨
          e.end_position < e.current_position) →
        f.current_position = e.start_position) ∧
      (e.start_position ≤ e.current_position →
        e.current_position ≤ e.end_position →
        f.current_position = e.current_position) ∧
      f.playing = true := by
  have hstop : (stop e).current_position = e.current_position ∧
      (stop e).start_position = e.start_position ∧
      (stop e).end_position = e.end_position := by
    unfold stop pause
    split <;> exact ⟨rfl, rfl, rfl⟩
  obtain ⟨hc, hs, he⟩ := hstop
  unfold play_section
  rw [h]
  dsimp only
  rw [hc, hs, he]
  by_cases hcl : e.current_position < e.start_position ∨
      e.end_position < e.current_position
  · rw [if_pos hcl]
    exact ⟨_, rfl, fun _ => rfl, fun h1 h2 => by
      rcases hcl with h3 | h3
      · exact absurd h1 (not_le.mpr h3)
      · exact absurd h2 (not_le.mpr h3), rfl⟩
  · rw [if_neg hcl]
    exact ⟨_, rfl, fun hx => absurd hx hcl, fun _ _ => hc, rfl⟩

/-- Witness for C5 at a concrete engine: the out-of-range position is
clamped to the start of the section. -/
theorem claim_C5_witness :
    ∃ f, play_section w5Engine = .ok f ∧
      f.current_position = w5Engine.start_position ∧ f.playing = true := by
  obtain ⟨f, h1, h2, _h3, h4⟩ :=
    claim_C5 w5Engine ⟨"t", "p", 120, [], "s"⟩ rfl
  exact ⟨f, h1,
    h2 (Or.inr (of_decide_eq_true (by with_unfolding_all rfl))), h4⟩

-- -------------------------------------------------------
--   CLAIM C10
-- -------------------------------------------------------

/-- C10: toggling an unknown stem returns `False`, leaves `muted_stems`
(indeed the whole engine) unchanged and delivers no notifications; and a
known, currently muted stem also yields `False`, so the return value alone
cannot distinguish the two cases. -/
theorem claim_C10 :
    (∀ (e : Engine) (n : String), alookup n e.stems = none →
      toggle_mute_stem e n = (false, e, [])) ∧
    (∀ (e : Engine) (n : String) (a : NpArr), alookup n e.stems = some a →
      n ∈ e.muted_stems → (toggle_mute_stem e n).1 = false) := by
  constructor
  · intro e n h
    unfold toggle_mute_stem
    rw [h]
  · intro e n a h hm
    unfold toggle_mute_stem
    rw [h]
    simp [hm]

/-- Witness for C10 at concrete inputs: an unknown stem and a known muted
stem both report `false`. -/
theorem claim_C10_witness :
    toggle_mute_stem w10Engine "b" = (false, w10Engine, []) ∧
    (toggle_mute_stem w10Engine "a").1 = false := by
  constructor
  · exact claim_C10.1 w10Engine "b"
      (of_decide_eq_true (by with_unfolding_all rfl))
  · exact claim_C10.2 w10Engine "a" (NpArr.one [1, 2])
      (of_decide_eq_true (by with_unfolding_all rfl))
      (of_decide_eq_true (by with_unfolding_all rfl))

-- -------------------------------------------------------
--   CLAIM C1
-- -------------------------------------------------------

/-- Counterexample to C1: a `load_song` call that fails with the
*No Audio Data* error nevertheless mutates engine state — the stems map and
the processed-stems cache are cleared before the error is raised
(lines 156-157 run before the check at line 168), so they do not have the
same values after the failed call as before it. -/
theorem claim_C1_counterexample :
    (load_song ce1Engine ce1Folder).1 =
      .error (.fileNotFoundError (msgNoAudio "f")) ∧
    (load_song ce1Engine ce1Folder).2.stems ≠ ce1Engine.stems ∧
    (load_song ce1Engine ce1Folder).2.processed_stems ≠
      ce1Engine.processed_stems :=
  of_decide_eq_true (by with_unfolding_all rfl)

/-- C1 amended: a `load_song` call failing with *Missing Configuration*
mutates no engine state at all; a call failing with *No Audio Data* leaves
`muted_stems`, `current_song` and the start/current/end positions
unchanged, but clears the stems map and the processed-stems cache (they
are cleared before the audio scan, and the scan loaded nothing). -/
theorem claim_C1_amended (e : Engine) (f : SongFolder) :
    (¬ f.hasConfig →
      load_song e f = (.error (.fileNotFoundError (msgNoConfig f.path)), e)) ∧
    (f.hasConfig → f.audioFiles = [] →
      load_song e f =
        (.error (.fileNotFoundError (msgNoAudio f.path)),
         { e with stems := [], processed_stems := [] })) := by
  constructor
  · intro h
    unfold load_song
    rw [if_pos h]
  · intro h ha
    unfold load_song
    rw [if_neg (by simp [h]), ha]
    rfl

/-- Witness for C1 amended at concrete inputs: the missing-configuration
exit returns the engine untouched, and the no-audio exit returns it with
only the stems map and cache cleared. -/
theorem claim_C1_witness :
    load_song ce1Engine ⟨"g", "g", false, ⟨none, none, [], none⟩, []⟩ =
      (.error (.fileNotFoundError (msgNoConfig "g")), ce1Engine) ∧
    load_song ce1Engine ce1Folder =
      (.error (.fileNotFoundError (msgNoAudio "f")),
       { ce1Engine with stems := [], processed_stems := [] }) := by
  constructor
  · exact (claim_C1_amended ce1Engine
      ⟨"g", "g", false, ⟨none, none, [], none⟩, []⟩).1
      (of_decide_eq_true (by with_unfolding_all rfl))
  · exact (claim_C1_amended ce1Engine ce1Folder).2
      (of_decide_eq_true (by with_unfolding_all rfl)) rfl

-- -------------------------------------------------------
--   CLAIM C4
-- -------------------------------------------------------

/-- Counterexample to C4: the invariant `muted_stems ⊆ stem names` holds
before a `load_song` call that fails with *No Audio Data*, and is violated
after it — the failed call clears the stems map but leaves `muted_stems`
untouched (line 172 is only reached on success), so `"a"` stays muted
while no stem named `"a"` exists any more. -/
theorem claim_C4_counterexample :
    MutedInv ce4Engine ∧
    "a" ∈ (load_song ce4Engine ce4Folder).2.muted_stems ∧
    "a" ∉ get_stem_names (load_song ce4Engine ce4Folder).2 := by
  refine ⟨?_, ?_, ?_⟩
  · intro s hs
    have : s = "a" := by
      have : s ∈ ({"a"} : Finset String) := hs
      simpa using this
    rw [this]
    exact of_decide_eq_true (by with_unfolding_all rfl)
  · exact of_decide_eq_true (by with_unfolding_all rfl)
  · exact of_decide_eq_true (by with_unfolding_all rfl)

/-- C4 amended: `muted_stems ⊆ {loaded stem names}` holds at construction
and is preserved by `toggle_mute_stem`, `play_section`, `pause`, every
setter, a successful `load_song`, and `load_song`'s *Missing Configuration*
error exit — but not by its *No Audio Data* error exit, which clears the
stems while keeping the mute set. -/
theorem claim_C4_amended :
    MutedInv engineInit ∧
    (∀ e n, MutedInv e → MutedInv (toggle_mute_stem e n).2.1) ∧
    (∀ e f, MutedInv e → play_section e = .ok f → MutedInv f) ∧
    (∀ e, MutedInv e → MutedInv (pause e)) ∧
    (∀ e p, MutedInv e → MutedInv (set_position e p)) ∧
    (∀ e p, MutedInv e → MutedInv (set_start_position e p)) ∧
    (∀ e p, MutedInv e → MutedInv (set_end_position e p)) ∧
    (∀ e q, MutedInv e → MutedInv (set_playback_speed e q)) ∧
    (∀ e q, MutedInv e → MutedInv (set_loop_delay e q)) ∧
    (∀ e b, MutedInv e → MutedInv (set_loop e b)) ∧
    (∀ e b, MutedInv e → MutedInv (set_count_in e b)) ∧
    (∀ e fo cfg f, load_song e fo = (.ok cfg, f) → MutedInv f) ∧
    (∀ e fo, ¬ fo.hasConfig → MutedInv e → MutedInv (load_song e fo).2) := by
  refine ⟨?_, ?_, ?_, ?_, ?_, ?_, ?_, ?_, ?_, ?_, ?_, ?_, ?_⟩
  · intro s hs
    simp [engineInit] at hs
  · intro e n hInv
    unfold toggle_mute_stem
    cases hl : alookup n e.stems with
    | none => exact hInv
    | some a =>
      by_cases hm : n ∈ e.muted_stems
      · simp only [hm, if_pos]
        intro s hs
        exact hInv s (Finset.mem_of_mem_erase hs)
      · simp only [hm, if_neg, not_false_iff]
        intro s hs
        rcases Finset.mem_insert.mp hs with h1 | h1
        · rw [h1]
          exact alookup_mem_fst hl
        · exact hInv s h1
  · intro e f hInv hp
    unfold play_section at hp
    cases hc : e.current_song with
    | none => rw [hc] at hp; exact absurd hp (by simp)
    | some c =>
      rw [hc] at hp
      dsimp only at hp
      have hmu : f.muted_stems = e.muted_stems ∧
          f.stems = e.stems := by
        have hst : (stop e).muted_stems = e.muted_stems ∧
            (stop e).stems = e.stems := by
          unfold stop pause
          split <;> exact ⟨rfl, rfl⟩
        split at hp <;>
          · injection hp with hp2
            rw [← hp2]
            exact hst
      intro s hs
      rw [hmu.1] at hs
      have := hInv s hs
      unfold get_stem_names at this ⊢
      rw [hmu.2]
      exact this
  · intro e hInv
    unfold pause
    split
    · exact hInv
    · exact hInv
  · exact fun e p hInv => hInv
  · exact fun e p hInv => hInv
  · exact fun e p hInv => hInv
  · exact fun e q hInv => hInv
  · exact fun e q hInv => hInv
  · exact fun e b hInv => hInv
  · exact fun e b hInv => hInv
  · intro e fo cfg f hp
    unfold load_song at hp
    split at hp
    · exact absurd hp (by simp)
    · dsimp only at hp
      split at hp
      · exact absurd hp (by simp)
      · split at hp <;>
          · injection hp with hp1 hp2
            rw [← hp2]
            intro s hs
            simp at hs
  · intro e fo hcfg hInv
    unfold load_song
    rw [if_pos hcfg]
    exact hInv

/-- Witness for C4 amended at concrete inputs: the invariant holds for the
freshly constructed engine and survives a mute toggle on the loaded
stem `"a"`. -/
theorem claim_C4_witness :
    MutedInv engineInit ∧ MutedInv (toggle_mute_stem ce4Engine "a").2.1 := by
  constructor
  · exact claim_C4_amended.1
  · refine claim_C4_amended.2.1 ce4Engine "a" ?_
    intro s hs
    have : s = "a" := by
      have : s ∈ ({"a"} : Finset String) := hs
      simpa using this
    rw [this]
    exact of_decide_eq_true (by with_unfolding_all rfl)

-- -------------------------------------------------------
--   MIX-PREPARATION LEMMAS
-- -------------------------------------------------------

lemma addMono_length {mix : List (List ℚ)} {snip : List ℚ} {ltm : ℕ}
    (h1 : ltm ≤ mix.length) (h2 : ltm ≤ snip.length) :
    (addMono mix snip ltm).length = mix.length := by
  unfold addMono
  rw [List.length_append, List.length_zipWith, List.length_take,
    List.length_take, List.length_drop]
  omega

lemma addMulti_length {mix snipRows : List (List ℚ)} {ltm ctm : ℕ}
    (h1 : ltm ≤ mix.length) (h2 : ltm ≤ snipRows.length) :
    (addMulti mix snipRows ltm ctm).length = mix.length := by
  unfold addMulti
  rw [List.length_append, List.length_zipWith, List.length_take,
    List.length_take, List.length_drop]
  omega

lemma mixStep_length (channels : ℕ) (mix : List (List ℚ))
    (r : Option NpArr) : (mixStep channels mix r).length = mix.length := by
  cases r with
  | none => rfl
  | some snip =>
    simp only [mixStep]
    by_cases hsz : 0 < snip.size
    · rw [if_pos hsz]
      by_cases hltm : min mix.length snip.len = 0
      · rw [if_pos hltm]
      · rw [if_neg hltm]
        cases snip with
        | one xs =>
          exact addMono_length (min_le_left _ _) (min_le_right _ _)
        | two c rows =>
          exact addMulti_length (min_le_left _ _) (min_le_right _ _)
    · rw [if_neg hsz]

lemma mixLoop_length (ctx : StemCtx) (a b sp : ℚ) (muted : Finset String)
    (channels : ℕ) :
    ∀ (L : List (String × NpArr)) (cache : Cache) (mix : List (List ℚ)),
      (mixLoop ctx a b sp muted channels L cache mix).1.length =
        mix.length := by
  intro L
  induction L with
  | nil => intro cache mix; rfl
  | cons hd t ih =>
    intro cache mix
    obtain ⟨n, arr⟩ := hd
    unfold mixLoop
    by_cases hm : n ∈ muted
    · rw [if_pos hm]
      exact ih cache mix
    · rw [if_neg hm]
      rw [ih, mixStep_length]

lemma computeSnippet_none_of_le (ctx : StemCtx) (n : String) {a b : ℚ}
    (h : b ≤ a) (sp : ℚ) : computeSnippet ctx n a b sp = none := by
  unfold computeSnippet
  cases hl : alookup n ctx.stems with
  | none => rfl
  | some audio =>
    dsimp only
    rw [if_pos]
    have hm : pyInt (b * (ctx.srs : ℚ)) ≤ pyInt (a * (ctx.srs : ℚ)) :=
      pyInt_mono (mul_le_mul_of_nonneg_right h (by positivity))
    calc min (audio.len : ℤ) (pyInt (b * (ctx.srs : ℚ)))
        ≤ pyInt (b * (ctx.srs : ℚ)) := min_le_right _ _
      _ ≤ pyInt (a * (ctx.srs : ℚ)) := hm
      _ ≤ max 0 (pyInt (a * (ctx.srs : ℚ))) := le_max_right _ _

lemma mixLoop_silent (ctx : StemCtx) {a b : ℚ} (h : b ≤ a) (sp : ℚ)
    (muted : Finset String) (channels : ℕ) :
    ∀ (L : List (String × NpArr)) (mix : List (List ℚ)),
      mixLoop ctx a b sp muted channels L [] mix = (mix, []) := by
  intro L
  induction L with
  | nil => intro mix; rfl
  | cons hd t ih =>
    intro mix
    obtain ⟨n, arr⟩ := hd
    unfold mixLoop
    by_cases hm : n ∈ muted
    · rw [if_pos hm]
      exact ih mix
    · rw [if_neg hm]
      have hg : getOrStretchC ctx [] n a b sp = (none, []) := by
        unfold getOrStretchC
        rw [computeSnippet_none_of_le ctx n h sp]
        rfl
      rw [hg]
      exact ih mix

lemma mixLoop_cons_unmuted (ctx : StemCtx) (a b sp : ℚ)
    (muted : Finset String) (channels : ℕ) {n : String} (arr : NpArr)
    (hm : n ∉ muted) (t : List (String × NpArr)) (cache : Cache)
    (mix : List (List ℚ)) {r : Option NpArr} {c2 : Cache}
    (hg : getOrStretchC ctx cache n a b sp = (r, c2)) :
    mixLoop ctx a b sp muted channels ((n, arr) :: t) cache mix =
      mixLoop ctx a b sp muted channels t c2 (mixStep channels mix r) := by
  simp only [mixLoop]
  rw [if_neg hm, hg]

lemma rowsAllZero_zeros (n c : ℕ) : rowsAllZero (zerosRows n c) := by
  intro r hr x hx
  rw [List.eq_of_mem_replicate hr] at hx
  exact List.eq_of_mem_replicate hx

-- -------------------------------------------------------
--   CLAIM C2
-- -------------------------------------------------------

/-- Counterexample to C2: with a stem loaded and `speed = 0`,
`_prepare_mixed_audio` raises `ZeroDivisionError` at the division of
line 471 instead of returning a `(buffer, channel_count)` pair, refuting
both "never raises" and "returns a zero-length buffer when speed ≤ 0". -/
theorem claim_C2_counterexample :
    prepare_mixed_audio e2Engine 0 2 0 ∅ = .error .zeroDivisionError ∧
    e2Engine.stems ≠ [] :=
  of_decide_eq_true (by with_unfolding_all rfl)

/-- C2 amended: for every `speed ≠ 0`, `_prepare_mixed_audio` never raises
and returns a `(buffer, channel_count)` pair; the buffer is zero-length
when no stems are loaded, when `end ≤ start` with `speed > 0`, or when
`speed < 0` with `start < end`; and whenever `end ≤ start` and the
time-stretch cache is empty the returned buffer is all-silence.  (With
stems loaded and `speed = 0` the method instead raises `ZeroDivisionError`,
as the counterexample shows.) -/
theorem claim_C2_amended (e : Engine) (a b sp : ℚ) (muted : Finset String)
    (hsp : sp ≠ 0) :
    ∃ buf ch f, prepare_mixed_audio e a b sp muted = .ok ((buf, ch), f) ∧
      (e.stems = [] → buf.len = 0) ∧
      (b ≤ a → 0 < sp → buf.len = 0) ∧
      (sp < 0 → a < b → buf.len = 0) ∧
      (b ≤ a → e.processed_stems = [] → buf.allZero) := by
  unfold prepare_mixed_audio prepareC Engine.ctx
  dsimp only
  cases hst : e.stems with
  | nil =>
    refine ⟨NpArr.two 1 [], 1, _, rfl, fun _ => rfl, fun _ _ => rfl,
      fun _ _ => rfl, fun _ _ => ?_⟩
    intro r hr
    cases hr
  | cons hd t =>
    rw [if_neg hsp]
    by_cases hnl0 : pyInt ((b - a) * (e.stem_srs : ℚ) / sp) ≤ 0
    · rw [if_pos hnl0]
      refine ⟨NpArr.two (maxChannels (hd :: t)) [], maxChannels (hd :: t),
        _, rfl, fun hx => by simp at hx, fun _ _ => rfl, fun _ _ => rfl,
        fun _ _ => ?_⟩
      intro r hr
      cases hr
    · rw [if_neg hnl0]
      refine ⟨_, _, _, rfl, fun hx => by simp at hx, ?_, ?_, ?_⟩
      · intro hba hsp2
        refine absurd (pyInt_nonpos ?_) hnl0
        have h2 : (b - a) * (e.stem_srs : ℚ) ≤ 0 :=
          mul_nonpos_iff.mpr (Or.inr ⟨by linarith, by positivity⟩)
        exact div_nonpos_iff.mpr (Or.inr ⟨h2, le_of_lt hsp2⟩)
      · intro hsp2 hab
        refine absurd (pyInt_nonpos ?_) hnl0
        have h2 : 0 ≤ (b - a) * (e.stem_srs : ℚ) :=
          mul_nonneg (by linarith) (by positivity)
        exact div_nonpos_iff.mpr (Or.inl ⟨h2, le_of_lt hsp2⟩)
      · intro hba hca
        rw [hca, mixLoop_silent _ hba]
        exact rowsAllZero_zeros _ _

/-- Witness for C2 amended at concrete inputs: a degenerate section
(`end ≤ start`) with a loaded stem yields an `ok` result with a zero-length
buffer. -/
theorem claim_C2_witness :
    ∃ buf ch f, prepare_mixed_audio e2Engine 2 1 1 ∅ = .ok ((buf, ch), f) ∧
      buf.len = 0 := by
  obtain ⟨buf, ch, f, h1, _h2, h3, _h4, _h5⟩ :=
    claim_C2_amended e2Engine 2 1 1 ∅
      (of_decide_eq_true (by with_unfolding_all rfl))
  exact ⟨buf, ch, f, h1,
    h3 (of_decide_eq_true (by with_unfolding_all rfl))
      (of_decide_eq_true (by with_unfolding_all rfl))⟩

-- -------------------------------------------------------
--   CLAIM C9
-- -------------------------------------------------------

/-- Counterexample to C9: the count-in does not check the cancellation
signal after the inter-click waits.  If it did, then whenever cancellation
is requested no later than the end of the first inter-click wait (at most
two completed actions) at most one click would play; but with cancellation
requested during that first wait the loop still plays a second click,
because the only check sits after each click (line 715), with none after
the sleep of line 719. -/
theorem claim_C9_counterexample :
    ¬ (∀ s, s ≤ 2 → countClicks (play_count_in e9Engine s) ≤ 1) := by
  intro hclaim
  have h2 := hclaim 2 (le_refl 2)
  have he : countClicks (play_count_in e9Engine 2) = 2 :=
    of_decide_eq_true (by with_unfolding_all rfl)
  omega

/-- C9 amended: with a loaded song of positive bpm whose click fits in a
beat, an uncancelled count-in plays exactly four clicks, each followed by
an inter-click wait of `60/bpm` minus the click duration (so clicks are
spaced `60/bpm` apart); the cancellation signal is checked after every
click — and only there — so a request after `s` completed actions stops
the count-in after `min 4 ((s + 2) / 2)` clicks: a request during an
inter-click wait is observed only once the next click has played. -/
theorem claim_C9_amended (e : Engine) (song : SongConfig)
    (h : e.current_song = some song) (hb : 0 < song.bpm)
    (hw : clickDur < 60 / song.bpm) :
    (∀ s, 9 ≤ s → play_count_in e s =
      [CIEvent.click, CIEvent.wait (60 / song.bpm - clickDur),
       CIEvent.click, CIEvent.wait (60 / song.bpm - clickDur),
       CIEvent.click, CIEvent.wait (60 / song.bpm - clickDur),
       CIEvent.click, CIEvent.wait (60 / song.bpm - clickDur)]) ∧
    (∀ s, countClicks (play_count_in e s) = min 4 ((s + 2) / 2)) := by
  have hbpm : song.bpm ≠ 0 := ne_of_gt hb
  have hw2 : 0 < 60 / song.bpm - clickDur := by linarith
  constructor
  · intro s hs
    unfold play_count_in
    rw [h]
    dsimp only
    rw [if_neg hbpm]
    have h1 : ¬ (s ≤ 0 + 1) := by omega
    have h3 : ¬ (s ≤ 0 + 2 + 1) := by omega
    have h5 : ¬ (s ≤ 0 + 2 + 2 + 1) := by omega
    have h7 : ¬ (s ≤ 0 + 2 + 2 + 2 + 1) := by omega
    simp only [countInLoop, if_neg h1, if_neg h3, if_neg h5, if_neg h7,
      if_pos hw2]
  · intro s
    unfold play_count_in
    rw [h]
    dsimp only
    rw [if_neg hbpm]
    rcases Nat.lt_or_ge s 9 with hlt | hge
    · interval_cases s <;>
        simp [countInLoop, hw, hw2, countClicks, isClick]
    · have h1 : ¬ (s ≤ 0 + 1) := by omega
      have h3 : ¬ (s ≤ 0 + 2 + 1) := by omega
      have h5 : ¬ (s ≤ 0 + 2 + 2 + 1) := by omega
      have h7 : ¬ (s ≤ 0 + 2 + 2 + 2 + 1) := by omega
      simp only [countInLoop, if_neg h1, if_neg h3, if_neg h5, if_neg h7,
        if_pos hw2]
      have hm : min 4 ((s + 2) / 2) = 4 := by omega
      rw [hm]
      rfl

/-- Witness for C9 amended at a concrete engine (bpm 120): cancellation
after two actions (i.e. during the first inter-click wait) yields two
clicks, and an uncancelled run yields four. -/
theorem claim_C9_witness :
    countClicks (play_count_in e9Engine 2) = 2 ∧
    countClicks (play_count_in e9Engine 99) = 4 := by
  obtain ⟨_h1, h2⟩ := claim_C9_amended e9Engine ⟨"t", "p", 120, [], "s"⟩ rfl
    (of_decide_eq_true (by with_unfolding_all rfl))
    (of_decide_eq_true (by with_unfolding_all rfl))
  exact ⟨h2 2, h2 99⟩

-- -------------------------------------------------------
--   SNIPPET-CACHE LEMMAS
-- -------------------------------------------------------

lemma getOrStretchC_hit {ctx : StemCtx} {cache : Cache} {n : String}
    {a b sp : ℚ} {v : NpArr}
    (h : alookup (snippetKey n a b sp) cache = some v) :
    getOrStretchC ctx cache n a b sp = (some v, cache) := by
  simp only [getOrStretchC, h]

lemma getOrStretchC_stable (ctx : StemCtx) (cache : Cache) (n : String)
    (a b sp : ℚ) :
    getOrStretchC ctx (getOrStretchC ctx cache n a b sp).2 n a b sp =
      getOrStretchC ctx cache n a b sp := by
  cases hl : alookup (snippetKey n a b sp) cache with
  | some v => simp only [getOrStretchC, hl]
  | none =>
    cases hc : computeSnippet ctx n a b sp with
    | none => simp only [getOrStretchC, hl, hc]
    | some v => simp [getOrStretchC, hl, hc, alookup_dictInsert]

lemma getOrStretchC_some_cached {ctx : StemCtx} {cache : Cache} {n : String}
    {a b sp : ℚ} {v : NpArr}
    (h : (getOrStretchC ctx cache n a b sp).1 = some v) :
    alookup (snippetKey n a b sp) (getOrStretchC ctx cache n a b sp).2 =
      some v := by
  cases hl : alookup (snippetKey n a b sp) cache with
  | some w =>
    simp only [getOrStretchC, hl] at h ⊢
    injection h with h
    rw [← h]
  | none =>
    cases hc : computeSnippet ctx n a b sp with
    | none =>
      simp only [getOrStretchC, hl, hc] at h
      exact Option.noConfusion h
    | some w =>
      simp only [getOrStretchC, hl, hc] at h ⊢
      injection h with h
      simp [alookup_dictInsert, h]

lemma sliceFrames_len (a : NpArr) (i j : ℕ) (hj : j ≤ a.len) :
    (a.sliceFrames i j).len = min (j - i) (a.len - i) := by
  cases a <;>
    simp [NpArr.sliceFrames, NpArr.len]

lemma stretchSamples_length (xs : List ℚ) {sp : ℚ} (h : 0 < sp) :
    (stretchSamples xs sp).length = (⌊(xs.length : ℚ) / sp⌋).toNat := by
  unfold stretchSamples
  rw [if_neg (not_le.mpr h), List.length_map, List.length_range]

lemma stretchRows_length (rows : List (List ℚ)) {sp : ℚ} (h : 0 < sp) :
    (stretchRows rows sp).length = (⌊(rows.length : ℚ) / sp⌋).toNat := by
  unfold stretchRows
  rw [if_neg (not_le.mpr h), List.length_map, List.length_range]

lemma custom_time_stretch_len (a : NpArr) {sp : ℚ} (h : 0 < sp) :
    (custom_time_stretch a sp).len = (⌊(a.len : ℚ) / sp⌋).toNat := by
  unfold custom_time_stretch pyrbStretch
  rw [if_neg (not_le.mpr h)]
  cases a with
  | one xs => exact stretchSamples_length xs h
  | two c rows => exact stretchRows_length rows h

-- -------------------------------------------------------
--   CLAIM C7
-- -------------------------------------------------------

/-- Counterexample to C7: two calls with the same stem and boundaries but
two *different* speeds return the *identical* (hence equal-length) buffer,
because `1` and `1.0000001` round to the same six-decimal cache key
(lines 412-415) and the second call hits the entry cached by the first —
refuting "for two different speeds the returned buffers have different
lengths". -/
theorem claim_C7_counterexample :
    (getOrStretchC e7Ctx (getOrStretchC e7Ctx [] "a" 0 2 1).2 "a" 0 2
        (10000001 / 10000000)).1 = (getOrStretchC e7Ctx [] "a" 0 2 1).1 ∧
    (getOrStretchC e7Ctx [] "a" 0 2 1).1.isSome ∧
    (10000001 / 10000000 : ℚ) ≠ 1 :=
  of_decide_eq_true (by with_unfolding_all rfl)

/-- C7 amended: (1) two successive calls to
`_get_or_stretch_stem_snippet` with identical arguments and no intervening
cache clear return bit-identical buffers (the whole call, result and cache,
is idempotent); (2) more generally, any second call whose *rounded cache
key* coincides with the first's returns the first's buffer unchanged, even
for a different speed; (3) a call with `speed > 0` whose key is not cached
returns a buffer of length exactly `⌊snippet_len / speed⌋` — i.e. about
`(end-start)·sample_rate/speed` — so two fresh speeds yield different
lengths exactly when those floors differ. -/
theorem claim_C7_amended :
    (∀ (ctx : StemCtx) (cache : Cache) (n : String) (a b sp : ℚ),
      getOrStretchC ctx (getOrStretchC ctx cache n a b sp).2 n a b sp =
        getOrStretchC ctx cache n a b sp) ∧
    (∀ (ctx : StemCtx) (cache : Cache) (n : String) (a b sp sp2 : ℚ)
        (v : NpArr),
      snippetKey n a b sp2 = snippetKey n a b sp →
      (getOrStretchC ctx cache n a b sp).1 = some v →
      (getOrStretchC ctx (getOrStretchC ctx cache n a b sp).2 n a b sp2).1 =
        some v) ∧
    (∀ (ctx : StemCtx) (cache : Cache) (n : String) (a b sp : ℚ) (v : NpArr),
      0 < sp →
      alookup (snippetKey n a b sp) cache = none →
      (getOrStretchC ctx cache n a b sp).1 = some v →
      v.len = (⌊(snippetSampleLen ctx n a b : ℚ) / sp⌋).toNat) := by
  refine ⟨getOrStretchC_stable, ?_, ?_⟩
  · intro ctx cache n a b sp sp2 v hkey hv
    have hc := getOrStretchC_some_cached hv
    rw [getOrStretchC_hit (hkey ▸ hc)]
  · intro ctx cache n a b sp v hsp hl hv
    simp only [getOrStretchC, hl] at hv
    unfold snippetSampleLen
    cases hc : computeSnippet ctx n a b sp with
    | none =>
      rw [hc] at hv
      exact absurd hv (by simp)
    | some w =>
      rw [hc] at hv
      dsimp only at hv
      have hwv : w = v := by injection hv
      subst hwv
      unfold computeSnippet at hc
      cases ha : alookup n ctx.stems with
      | none => rw [ha] at hc; exact absurd hc (by simp)
      | some audio =>
        rw [ha] at hc
        dsimp only at hc
        split at hc
        · exact absurd hc (by simp)
        · split at hc
          · exact absurd hc (by simp)
          · injection hc with hc
            rw [← hc, custom_time_stretch_len _ hsp]
            have hle : (min (audio.len : ℤ)
                (pyInt (b * (ctx.srs : ℚ)))).toNat ≤ audio.len := by
              have := min_le_left (audio.len : ℤ) (pyInt (b * (ctx.srs : ℚ)))
              omega
            rw [sliceFrames_len _ _ _ hle]
            have hXY : min ((min (audio.len : ℤ)
                  (pyInt (b * (ctx.srs : ℚ)))).toNat -
                  (max 0 (pyInt (a * (ctx.srs : ℚ)))).toNat)
                (audio.len - (max 0 (pyInt (a * (ctx.srs : ℚ)))).toNat) =
                (min (audio.len : ℤ) (pyInt (b * (ctx.srs : ℚ)))).toNat -
                  (max 0 (pyInt (a * (ctx.srs : ℚ)))).toNat := by
              omega
            rw [hXY]

/-- Witness for C7 at concrete inputs: the idempotence conjunct at the
one-stem context, and the fresh-length conjunct — the snippet `[0,2)` of
the four-sample stem at 2 Hz stretched at speed 2 has `⌊4/2⌋ = 2`
frames. -/
theorem claim_C7_witness :
    getOrStretchC e7Ctx (getOrStretchC e7Ctx [] "a" 0 2 2).2 "a" 0 2 2 =
      getOrStretchC e7Ctx [] "a" 0 2 2 ∧
    (NpArr.one [1, 3]).len =
      (⌊(snippetSampleLen e7Ctx "a" 0 2 : ℚ) / 2⌋).toNat := by
  constructor
  · exact claim_C7_amended.1 e7Ctx [] "a" 0 2 2
  · exact claim_C7_amended.2.2 e7Ctx [] "a" 0 2 2 (NpArr.one [1, 3])
      (of_decide_eq_true (by with_unfolding_all rfl))
      (of_decide_eq_true (by with_unfolding_all rfl))
      (of_decide_eq_true (by with_unfolding_all rfl))

-- -------------------------------------------------------
--   CACHE-PRESERVATION LEMMAS
-- -------------------------------------------------------

lemma getOrStretchC_preserves_alookup {ctx : StemCtx} {cache : Cache}
    {n : String} {a b sp : ℚ} {k : CacheKey} {v : NpArr}
    (h : alookup k cache = some v) :
    alookup k (getOrStretchC ctx cache n a b sp).2 = some v := by
  cases hl : alookup (snippetKey n a b sp) cache with
  | some w =>
    simp only [getOrStretchC, hl]
    exact h
  | none =>
    cases hc : computeSnippet ctx n a b sp with
    | none =>
      simp only [getOrStretchC, hl, hc]
      exact h
    | some w =>
      simp only [getOrStretchC, hl, hc]
      have hne : snippetKey n a b sp ≠ k := by
        intro he
        rw [he, h] at hl
        exact Option.noConfusion hl
      rw [alookup_dictInsert, if_neg hne]
      exact h

lemma mixLoop_preserves_alookup (ctx : StemCtx) (a b sp : ℚ)
    (muted : Finset String) (channels : ℕ) {k : CacheKey} {v : NpArr} :
    ∀ (L : List (String × NpArr)) (cache : Cache) (mix : List (List ℚ)),
      alookup k cache = some v →
      alookup k (mixLoop ctx a b sp muted channels L cache mix).2 =
        some v := by
  intro L
  induction L with
  | nil => intro cache mix h; exact h
  | cons hd t ih =>
    intro cache mix h
    obtain ⟨n, arr⟩ := hd
    unfold mixLoop
    by_cases hm : n ∈ muted
    · rw [if_pos hm]
      exact ih cache mix h
    · rw [if_neg hm]
      exact ih _ _ (@getOrStretchC_preserves_alookup ctx cache n a b sp k v h)

lemma prepareC_preserves_alookup {ctx : StemCtx} {cache : Cache}
    {a b sp : ℚ} {muted : Finset String}
    {res : (NpArr × ℕ) × Cache}
    (h : prepareC ctx cache a b sp muted = .ok res) {k : CacheKey}
    {v : NpArr} (hk : alookup k cache = some v) :
    alookup k res.2 = some v := by
  unfold prepareC at h
  cases hst : ctx.stems with
  | nil =>
    rw [hst] at h
    injection h with h
    rw [← h]
    exact hk
  | cons hd t =>
    rw [hst] at h
    dsimp only at h
    split at h
    · exact absurd h (by simp)
    · split at h
      · injection h with h
        rw [← h]
        exact hk
      · injection h with h
        rw [← h]
        exact mixLoop_preserves_alookup ctx a b sp muted _ _ cache _ hk

-- -------------------------------------------------------
--   CLAIM C3
-- -------------------------------------------------------

/-- Counterexample to C3: the engine's `playback_speed` differs from the
value used to build the worker's current mix buffer while the boundaries
are unchanged, yet after `recalculate` a pre-existing cache entry (under a
key unrelated to the rebuild) is still present — the time-stretch cache was
*not* cleared.  Line 542 clears the cache only when `start_position` or
`end_position` changed, not on a speed-only change. -/
theorem claim_C3_counterexample :
    ce3Engine.playback_speed ≠ ce3Worker.current_speed ∧
    ce3Engine.start_position = ce3Worker.current_start ∧
    ce3Engine.end_position = ce3Worker.current_end ∧
    alookup ghostKey ce3Engine.processed_stems = some (NpArr.one [9]) ∧
    (recalculate ce3Engine ce3Worker).toOption.map
      (fun p => alookup ghostKey p.1.processed_stems) =
      some (some (NpArr.one [9])) :=
  of_decide_eq_true (by with_unfolding_all rfl)

/-- C3 amended: during a recompute pass of the playback worker, (1) if
`start_position` or `end_position` differs from the value used to build
the current mix buffer, the time-stretch cache is cleared, the full mix is
rebuilt, and the frame-consumption offset is recalculated from
`current_position`; (2) if only `playback_speed` differs, the full mix is
rebuilt and the offset recalculated in the same way, but the cache is
*not* cleared; (3) if the parameters are unchanged but a recompute was
flagged (the mute callback), only a remix on the existing cache occurs;
(4) if nothing changed and no recompute was flagged, nothing happens; and
(5) a remix through `_prepare_mixed_audio` only adds cache entries, so
every previously cached stretched snippet survives it. -/
theorem claim_C3_amended (e : Engine) (w : WorkerState) :
    (∀ buf ch c2,
      (e.start_position ≠ w.current_start ∨
        e.end_position ≠ w.current_end) →
      e.playback_speed ≠ 0 →
      prepareC e.ctx [] e.start_position e.end_position e.playback_speed
        e.muted_stems = .ok ((buf, ch), c2) →
      recalculate e w =
        .ok ({ e with processed_stems := c2 }, rebuiltWorker e buf ch)) ∧
    (∀ buf ch c2,
      e.start_position = w.current_start → e.end_position = w.current_end →
      e.playback_speed ≠ w.current_speed →
      e.playback_speed ≠ 0 →
      prepareC e.ctx e.processed_stems e.start_position e.end_position
        e.playback_speed e.muted_stems = .ok ((buf, ch), c2) →
      recalculate e w =
        .ok ({ e with processed_stems := c2 }, rebuiltWorker e buf ch)) ∧
    (∀ buf ch c2,
      e.start_position = w.current_start → e.end_position = w.current_end →
      e.playback_speed = w.current_speed → w.should_recompute = true →
      e.playback_speed ≠ 0 →
      prepareC e.ctx e.processed_stems e.start_position e.end_position
        e.playback_speed e.muted_stems = .ok ((buf, ch), c2) →
      recalculate e w =
        .ok ({ e with processed_stems := c2 }, rebuiltWorker e buf ch)) ∧
    (e.start_position = w.current_start → e.end_position = w.current_end →
      e.playback_speed = w.current_speed → w.should_recompute = false →
      recalculate e w = .ok (e, w)) ∧
    (∀ (a b sp : ℚ) (muted : Finset String) (res : (NpArr × ℕ) × Cache),
      prepareC e.ctx e.processed_stems a b sp muted = .ok res →
      ∀ k v, alookup k e.processed_stems = some v →
        alookup k res.2 = some v) := by
  refine ⟨?_, ?_, ?_, ?_, ?_⟩
  · intro buf ch c2 ht hsp hp
    simp only [Engine.ctx] at hp
    unfold recalculate
    rw [if_pos (Or.inr ht), if_pos ht]
    simp only [prepare_mixed_audio, clear_stem_cache, Engine.ctx]
    rw [if_pos trivial, hp]
    dsimp only
    rw [if_neg hsp]
    rfl
  · intro buf ch c2 hs he hcs hsp hp
    simp only [Engine.ctx] at hp
    have hnt : ¬ (e.start_position ≠ w.current_start ∨
        e.end_position ≠ w.current_end) := by
      simp [hs, he]
    unfold recalculate
    rw [if_pos (Or.inl hcs), if_neg hnt]
    simp only [prepare_mixed_audio, Engine.ctx]
    rw [if_pos trivial, hp]
    dsimp only
    rw [if_neg hsp]
    rfl
  · intro buf ch c2 hs he hcs hsr hsp hp
    simp only [Engine.ctx] at hp
    have hnt : ¬ (e.start_position ≠ w.current_start ∨
        e.end_position ≠ w.current_end) := by
      simp [hs, he]
    have hnc : ¬ (e.playback_speed ≠ w.current_speed ∨
        e.start_position ≠ w.current_start ∨
        e.end_position ≠ w.current_end) := by
      simp [hs, he, hcs]
    unfold recalculate
    rw [if_neg hnc, if_neg hnt]
    simp only [prepare_mixed_audio, Engine.ctx]
    rw [if_pos hsr, hp]
    dsimp only
    rw [if_neg hsp]
    rfl
  · intro hs he hcs hsr
    have hnt : ¬ (e.start_position ≠ w.current_start ∨
        e.end_position ≠ w.current_end) := by
      simp [hs, he]
    have hnc : ¬ (e.playback_speed ≠ w.current_speed ∨
        e.start_position ≠ w.current_start ∨
        e.end_position ≠ w.current_end) := by
      simp [hs, he, hcs]
    unfold recalculate
    rw [if_neg hnc, if_neg hnt]
    dsimp only
    rw [if_neg (by simp [hsr])]
  · intro a b sp muted res hp k v hk
    exact prepareC_preserves_alookup hp hk

/-- Witness for C3 amended at concrete inputs: a speed-only change (2
versus the worker's 1) rebuilds the mix — the four-sample stem over
`[0, 2)` at speed 2 mixes to two frames `[[1], [3]]` — while the stale
`ghostKey` entry stays in the cache, to which the new snippet is merely
appended. -/
theorem claim_C3_witness :
    recalculate ce3Engine ce3Worker = .ok
      ({ ce3Engine with processed_stems :=
          [⟨ghostKey, NpArr.one [9]⟩, ⟨("a", 0, 2, 2), NpArr.one [1, 3]⟩] },
       rebuiltWorker ce3Engine (NpArr.two 1 [[1], [3]]) 1) := by
  exact (claim_C3_amended ce3Engine ce3Worker).2.1 (NpArr.two 1 [[1], [3]]) 1
    [⟨ghostKey, NpArr.one [9]⟩, ⟨("a", 0, 2, 2), NpArr.one [1, 3]⟩]
    rfl rfl
    (of_decide_eq_true (by with_unfolding_all rfl))
    (of_decide_eq_true (by with_unfolding_all rfl))
    (by with_unfolding_all rfl)

-- -------------------------------------------------------
--   STABILITY LEMMAS (repeated preparation is idempotent)
-- -------------------------------------------------------

lemma getOrStretchC_none_inv {ctx : StemCtx} {cache c2 : Cache} {n : String}
    {a b sp : ℚ}
    (h : getOrStretchC ctx cache n a b sp = (none, c2)) :
    alookup (snippetKey n a b sp) cache = none ∧
      computeSnippet ctx n a b sp = none ∧ c2 = cache := by
  cases hl : alookup (snippetKey n a b sp) cache with
  | some w =>
    simp only [getOrStretchC, hl] at h
    exact absurd h (by simp)
  | none =>
    cases hc : computeSnippet ctx n a b sp with
    | some w =>
      simp only [getOrStretchC, hl, hc] at h
      exact absurd h (by simp)
    | none =>
      simp only [getOrStretchC, hl, hc] at h
      injection h with h1 h2
      exact ⟨rfl, rfl, h2.symm⟩

lemma getOrStretchC_preserves_none {ctx : StemCtx} {cache : Cache}
    {n n2 : String} {a b sp : ℚ}
    (h1 : alookup (snippetKey n a b sp) cache = none)
    (h2 : computeSnippet ctx n a b sp = none) :
    alookup (snippetKey n a b sp)
      (getOrStretchC ctx cache n2 a b sp).2 = none := by
  cases hl : alookup (snippetKey n2 a b sp) cache with
  | some w =>
    simp only [getOrStretchC, hl]
    exact h1
  | none =>
    cases hcc : computeSnippet ctx n2 a b sp with
    | none =>
      simp only [getOrStretchC, hl, hcc]
      exact h1
    | some w =>
      simp only [getOrStretchC, hl, hcc]
      have hne : snippetKey n2 a b sp ≠ snippetKey n a b sp := by
        intro he
        have hnn : n2 = n := congrArg Prod.fst he
        rw [hnn, h2] at hcc
        exact Option.noConfusion hcc
      rw [alookup_dictInsert, if_neg hne]
      exact h1

lemma mixLoop_preserves_none (ctx : StemCtx) (a b sp : ℚ)
    (muted : Finset String) (channels : ℕ) {n : String}
    (h2 : computeSnippet ctx n a b sp = none) :
    ∀ (L : List (String × NpArr)) (cache : Cache) (mix : List (List ℚ)),
      alookup (snippetKey n a b sp) cache = none →
      alookup (snippetKey n a b sp)
        (mixLoop ctx a b sp muted channels L cache mix).2 = none := by
  intro L
  induction L with
  | nil => intro cache mix h1; exact h1
  | cons hd t ih =>
    intro cache mix h1
    obtain ⟨n2, arr⟩ := hd
    unfold mixLoop
    by_cases hm : n2 ∈ muted
    · rw [if_pos hm]
      exact ih cache mix h1
    · rw [if_neg hm]
      exact ih _ _ (@getOrStretchC_preserves_none ctx cache n n2 a b sp h1 h2)

lemma mixLoop_stable (ctx : StemCtx) (a b sp : ℚ) (muted : Finset String)
    (channels : ℕ) :
    ∀ (L : List (String × NpArr)) (cache : Cache) (mix : List (List ℚ)),
      mixLoop ctx a b sp muted channels L
          (mixLoop ctx a b sp muted channels L cache mix).2 mix =
        mixLoop ctx a b sp muted channels L cache mix := by
  intro L
  induction L with
  | nil => intro cache mix; rfl
  | cons hd t ih =>
    intro cache mix
    obtain ⟨n, arr⟩ := hd
    by_cases hm : n ∈ muted
    · have hstep : ∀ (c : Cache),
          mixLoop ctx a b sp muted channels ((n, arr) :: t) c mix =
            mixLoop ctx a b sp muted channels t c mix := by
        intro c
        simp only [mixLoop]
        rw [if_pos hm]
      rw [hstep, hstep]
      exact ih cache mix
    · cases hg : getOrStretchC ctx cache n a b sp with
      | mk r c2 =>
        have hrun1 := mixLoop_cons_unmuted ctx a b sp muted channels arr hm
          t cache mix hg
        cases r with
        | some v =>
          have hcached : alookup (snippetKey n a b sp) c2 = some v := by
            have hv : (getOrStretchC ctx cache n a b sp).1 = some v := by
              rw [hg]
            have := getOrStretchC_some_cached hv
            rw [hg] at this
            exact this
          have hcachedC : alookup (snippetKey n a b sp)
              (mixLoop ctx a b sp muted channels t c2
                (mixStep channels mix (some v))).2 = some v :=
            mixLoop_preserves_alookup ctx a b sp muted channels t c2 _
              hcached
          rw [hrun1]
          rw [mixLoop_cons_unmuted ctx a b sp muted channels arr hm t _ mix
            (getOrStretchC_hit hcachedC)]
          exact ih c2 _
        | none =>
          obtain ⟨hl1, hc1, hc2⟩ := getOrStretchC_none_inv hg
          rw [hc2] at hrun1
          have hnoneC : alookup (snippetKey n a b sp)
              (mixLoop ctx a b sp muted channels t cache
                (mixStep channels mix none)).2 = none :=
            mixLoop_preserves_none ctx a b sp muted channels hc1 t cache
              _ hl1
          have hcall : getOrStretchC ctx
              (mixLoop ctx a b sp muted channels t cache
                (mixStep channels mix none)).2 n a b sp =
              (none, (mixLoop ctx a b sp muted channels t cache
                (mixStep channels mix none)).2) := by
            simp only [getOrStretchC, hnoneC, hc1]
          rw [hrun1]
          rw [mixLoop_cons_unmuted ctx a b sp muted channels arr hm t _ mix
            hcall]
          exact ih cache _

lemma prepareC_stable {ctx : StemCtx} {cache : Cache} {a b sp : ℚ}
    {muted : Finset String} {buf : NpArr} {ch : ℕ} {c1 : Cache}
    (hp : prepareC ctx cache a b sp muted = .ok ((buf, ch), c1)) :
    prepareC ctx c1 a b sp muted = .ok ((buf, ch), c1) := by
  unfold prepareC at hp ⊢
  cases hst : ctx.stems with
  | nil =>
    rw [hst] at hp
    dsimp only at hp
    injection hp with hp
    injection hp with h1 h2
    rw [← h1]
  | cons hd t =>
    rw [hst] at hp
    dsimp only at hp
    by_cases hsp0 : sp = 0
    · rw [if_pos hsp0] at hp
      exact absurd hp (by simp)
    · rw [if_neg hsp0] at hp ⊢
      by_cases hnl : pyInt ((b - a) * (ctx.srs : ℚ) / sp) ≤ 0
      · rw [if_pos hnl] at hp ⊢
        injection hp with hp
        injection hp with h1 h2
        rw [← h1]
      · rw [if_neg hnl] at hp ⊢
        injection hp with hp
        injection hp with h1 h2
        rw [← h1, ← h2]
        rw [mixLoop_stable]

-- -------------------------------------------------------
--   CLAIM C8
-- -------------------------------------------------------

/-- C8: for a loaded stem `n` and fixed boundaries, speed and cache
contents, toggling mute on `n` twice restores `muted_stems` to its original
value, and `_prepare_mixed_audio` run after the round trip (on the cache
left by the pre-toggle preparation) returns a mix bit-identical to the one
produced before the first toggle. -/
theorem claim_C8 (e : Engine) (n : String) (a b sp : ℚ) (buf : NpArr)
    (ch : ℕ) (c1 : Cache)
    (hn : (alookup n e.stems).isSome)
    (hp : prepareC e.ctx e.processed_stems a b sp e.muted_stems =
      .ok ((buf, ch), c1)) :
    ((toggle_mute_stem
        ((toggle_mute_stem { e with processed_stems := c1 } n).2.1)
        n).2.1).muted_stems = e.muted_stems ∧
    prepareC
      ((toggle_mute_stem
          ((toggle_mute_stem { e with processed_stems := c1 } n).2.1)
          n).2.1).ctx
      ((toggle_mute_stem
          ((toggle_mute_stem { e with processed_stems := c1 } n).2.1)
          n).2.1).processed_stems a b sp
      ((toggle_mute_stem
          ((toggle_mute_stem { e with processed_stems := c1 } n).2.1)
          n).2.1).muted_stems =
      .ok ((buf, ch), c1) := by
  obtain ⟨arr, harr⟩ := Option.isSome_iff_exists.mp hn
  have hmut : ((toggle_mute_stem
      ((toggle_mute_stem { e with processed_stems := c1 } n).2.1)
      n).2.1).muted_stems = e.muted_stems ∧
      ((toggle_mute_stem
        ((toggle_mute_stem { e with processed_stems := c1 } n).2.1)
        n).2.1).stems = e.stems ∧
      ((toggle_mute_stem
        ((toggle_mute_stem { e with processed_stems := c1 } n).2.1)
        n).2.1).stem_srs = e.stem_srs ∧
      ((toggle_mute_stem
        ((toggle_mute_stem { e with processed_stems := c1 } n).2.1)
        n).2.1).processed_stems = c1 := by
    by_cases hm : n ∈ e.muted_stems
    · unfold toggle_mute_stem
      rw [harr]
      dsimp only
      rw [if_pos hm]
      dsimp only
      rw [harr]
      dsimp only
      rw [if_neg (by simp), Finset.insert_erase hm]
      exact ⟨rfl, rfl, rfl, rfl⟩
    · unfold toggle_mute_stem
      rw [harr]
      dsimp only
      rw [if_neg hm]
      dsimp only
      rw [harr]
      dsimp only
      rw [if_pos (Finset.mem_insert_self n _), Finset.erase_insert hm]
      exact ⟨rfl, rfl, rfl, rfl⟩
  obtain ⟨h1, h2, h3, h4⟩ := hmut
  refine ⟨h1, ?_⟩
  have hctx : ((toggle_mute_stem
      ((toggle_mute_stem { e with processed_stems := c1 } n).2.1)
      n).2.1).ctx = e.ctx := by
    unfold Engine.ctx
    rw [h2, h3]
  rw [hctx, h1, h4]
  exact prepareC_stable hp

/-- Witness for C8 at concrete inputs: the one-stem engine, section
`[0, 2)` at speed 1; the pre-toggle preparation fills the cache with the
stretched stem and the post-round-trip preparation reproduces the identical
four-frame mix. -/
theorem claim_C8_witness :
    ((toggle_mute_stem
        ((toggle_mute_stem { e2Engine with processed_stems :=
          [⟨("a", 0, 2, 1), NpArr.one [1, 2, 3, 4]⟩] } "a").2.1)
        "a").2.1).muted_stems = e2Engine.muted_stems ∧
    prepareC
      ((toggle_mute_stem
          ((toggle_mute_stem { e2Engine with processed_stems :=
            [⟨("a", 0, 2, 1), NpArr.one [1, 2, 3, 4]⟩] } "a").2.1)
          "a").2.1).ctx
      ((toggle_mute_stem
          ((toggle_mute_stem { e2Engine with processed_stems :=
            [⟨("a", 0, 2, 1), NpArr.one [1, 2, 3, 4]⟩] } "a").2.1)
          "a").2.1).processed_stems 0 2 1
      ((toggle_mute_stem
          ((toggle_mute_stem { e2Engine with processed_stems :=
            [⟨("a", 0, 2, 1), NpArr.one [1, 2, 3, 4]⟩] } "a").2.1)
          "a").2.1).muted_stems =
      .ok ((NpArr.two 1 [[1], [2], [3], [4]], 1),
        [⟨("a", 0, 2, 1), NpArr.one [1, 2, 3, 4]⟩]) :=
  claim_C8 e2Engine "a" 0 2 1 (NpArr.two 1 [[1], [2], [3], [4]]) 1
    [⟨("a", 0, 2, 1), NpArr.one [1, 2, 3, 4]⟩]
    (of_decide_eq_true (by with_unfolding_all rfl))
    (by with_unfolding_all rfl)

-- -------------------------------------------------------
--   STREAMING-PASS LEMMAS
-- -------------------------------------------------------

lemma runCallbacks_exhausted (bufLen : ℕ) (s e sp : ℚ) (srs : ℕ)
    (fuel fc : ℕ) (pos : ℚ) (h : bufLen ≤ fc) :
    runCallbacks bufLen s e sp srs (fuel + 1) fc pos = min e pos := by
  simp only [runCallbacks]
  rw [if_pos h]

lemma runCallbacks_run (bufLen : ℕ) (s e sp : ℚ) (srs : ℕ) :
    ∀ (fuel fc : ℕ) (pos : ℚ), fc < bufLen → bufLen ≤ fc + fuel →
      runCallbacks bufLen s e sp srs fuel fc pos =
        min e (s + ((bufLen : ℚ) / srs) * sp) := by
  intro fuel
  induction fuel with
  | zero =>
    intro fc pos h1 h2
    omega
  | succ fuel ih =>
    intro fc pos h1 h2
    simp only [runCallbacks]
    rw [if_neg (not_le.mpr h1)]
    by_cases h3 : bufLen ≤ fc + min 1024 (bufLen - fc)
    · have hfc2 : fc + min 1024 (bufLen - fc) = bufLen := by omega
      cases fuel with
      | zero =>
        simp only [runCallbacks]
        rw [hfc2]
      | succ fuel2 =>
        rw [runCallbacks_exhausted _ _ _ _ _ _ _ _ h3, hfc2]
        rw [← min_assoc, min_self]
    · exact ih _ _ (lt_of_not_le h3) (by omega)

lemma prepareC_ok_len {ctx : StemCtx} (cache : Cache) (a b sp : ℚ)
    (muted : Finset String) (hne : ctx.stems ≠ []) (hsp : sp ≠ 0) :
    ∃ buf ch c2, prepareC ctx cache a b sp muted = .ok ((buf, ch), c2) ∧
      buf.len = (pyInt ((b - a) * (ctx.srs : ℚ) / sp)).toNat := by
  unfold prepareC
  cases hst : ctx.stems with
  | nil => exact absurd hst hne
  | cons hd t =>
    dsimp only
    rw [if_neg hsp]
    by_cases hnl : pyInt ((b - a) * (ctx.srs : ℚ) / sp) ≤ 0
    · rw [if_pos hnl]
      refine ⟨_, _, _, rfl, ?_⟩
      rw [NpArr.len, Int.toNat_of_nonpos hnl]
      rfl
    · rw [if_neg hnl]
      refine ⟨_, _, _, rfl, ?_⟩
      rw [NpArr.len, mixLoop_length]
      unfold zerosRows
      rw [List.length_replicate]

-- -------------------------------------------------------
--   CLAIM C6
-- -------------------------------------------------------

/-- Counterexample to C6: a completed non-looping pass over section
`[0, 3/8)` at 4 Hz and speed 1 exhausts its one-frame mix buffer
(`int(3/8·4) = 1`) and ends with `is_playing() = false` but
`get_current_position() = 1/4 ≠ 3/8 = end_position`: the final position is
`min(end, start + int((end-start)·srs/speed)·speed/srs)`, which is strictly
short of `end_position` whenever the frame count truncates. -/
theorem claim_C6_counterexample :
    (playback_pass ce6Engine).toOption.map get_current_position =
      some (1 / 4) ∧
    (playback_pass ce6Engine).toOption.map is_playing = some false ∧
    ce6Engine.end_position = 3 / 8 ∧
    ce6Engine.loop = false ∧
    (1 / 4 : ℚ) ≠ 3 / 8 :=
  of_decide_eq_true (by with_unfolding_all rfl)

/-- C6 amended: when a non-looping, non-cancelled playback pass starting at
`start_position` completes, the worker exits with `is_playing() = false`
and `get_current_position()` equal to
`min(end_position, start_position + L·speed/srs)` where
`L = int((end_position-start_position)·srs/speed)` is the mix-buffer frame
count; this equals `end_position` exactly when `L·speed/srs` equals
`end_position - start_position` — as in the claim's example, section
`[2.0, 5.0)` at speed 1.0 — and falls short of it otherwise. -/
theorem claim_C6_amended (e : Engine)
    (hne : e.stems ≠ []) (hsp : 0 < e.playback_speed)
    (_hsr : 0 < e.stem_srs)
    (hcur : e.current_position = e.start_position)
    (hL : 0 < pyInt ((e.end_position - e.start_position) *
      (e.stem_srs : ℚ) / e.playback_speed)) :
    ∃ f, playback_pass e = .ok f ∧ is_playing f = false ∧
      get_current_position f = min e.end_position (e.start_position +
        (((pyInt ((e.end_position - e.start_position) * (e.stem_srs : ℚ) /
            e.playback_speed)).toNat : ℚ) / (e.stem_srs : ℚ)) *
          e.playback_speed) ∧
      ((((pyInt ((e.end_position - e.start_position) * (e.stem_srs : ℚ) /
            e.playback_speed)).toNat : ℚ) / (e.stem_srs : ℚ)) *
          e.playback_speed = e.end_position - e.start_position →
        get_current_position f = e.end_position) := by
  obtain ⟨buf, ch, c2, hp, hlen⟩ := @prepareC_ok_len e.ctx
    e.processed_stems e.start_position e.end_position
    e.playback_speed e.muted_stems hne (ne_of_gt hsp)
  simp only [Engine.ctx] at hlen
  unfold playback_pass prepare_mixed_audio
  rw [hp]
  dsimp only
  rw [if_neg (ne_of_gt hsp)]
  have h0 : (e.stem_srs : ℚ) *
      (e.current_position - e.start_position) / e.playback_speed = 0 := by
    rw [hcur, sub_self, mul_zero, zero_div]
  rw [h0, pyInt_zero]
  have hmin : min (0 : ℤ) ((buf.len : ℕ) : ℤ) = 0 := by omega
  rw [hmin]
  have hbuf : 0 < buf.len := by
    rw [hlen]
    omega
  rw [show ((0 : ℤ)).toNat = 0 from rfl]
  rw [runCallbacks_run buf.len e.start_position e.end_position
    e.playback_speed e.stem_srs (buf.len + 1) 0 e.current_position hbuf
    (by omega)]
  refine ⟨_, rfl, rfl, ?_, ?_⟩
  · rw [hlen]
    rfl
  · intro heq
    show min e.end_position (e.start_position +
      ((buf.len : ℚ) / (e.stem_srs : ℚ)) * e.playback_speed) =
      e.end_position
    rw [hlen, heq]
    rw [add_sub_cancel]
    exact min_self e.end_position

/-- Witness for C6 amended at a concrete engine: section `[0, 2)` of a
four-sample stem at 2 Hz and speed 1 gives a four-frame buffer with
`4·1/2 = 2 - 0`, so the completed pass ends exactly at `end_position`
with `is_playing() = false`. -/
theorem claim_C6_witness :
    ∃ f, playback_pass w6Engine = .ok f ∧ is_playing f = false ∧
      get_current_position f = w6Engine.end_position := by
  obtain ⟨f, h1, h2, _h3, h4⟩ := claim_C6_amended w6Engine
    (of_decide_eq_true (by with_unfolding_all rfl))
    (of_decide_eq_true (by with_unfolding_all rfl))
    (of_decide_eq_true (by with_unfolding_all rfl))
    (by with_unfolding_all rfl)
    (of_decide_eq_true (by with_unfolding_all rfl))
  exact ⟨f, h1, h2, h4 (by with_unfolding_all rfl)⟩

end SongLooper
